import Mathlib

/-!
Verification development for the `json_editor` repository: a terminal
editor for hierarchical JSON/YAML documents.  The Python sources under
`src/` (`actions.py`, `data_navigator.py`, `file_utils.py`, `main.py`)
are shallowly embedded below.  The collaborator module `data_utils.py`
(providing `smart_cast`, `get_data_by_path` and `change_data_by_path`)
is not part of the sources; its definitions are modelled from the
specification, as marked in their doc comments.
-/

namespace JsonEditor

/-- A document value: Python scalars (`None`, `bool`, `int`, `float`,
`str`), lists, and string-keyed dictionaries (insertion-ordered
association lists).  A float is modelled exactly as a decimal
`m * 10 ^ (-e)`; the commands proved about below never exercise binary
rounding. -/
inductive Doc where
  | null
  | bool (b : Bool)
  | int (n : Int)
  | flt (m : Int) (e : Nat)
  | str (s : String)
  | seq (items : List Doc)
  | map (entries : List (String × Doc))

/-- First entry of the association list with the given key
(Python `dict` indexing / `in`). -/
def lookup : List (String × Doc) → String → Option Doc
  | [], _ => none
  | (k, d) :: rest, key => if k = key then some d else lookup rest key

/-- Replace the value stored at a key, leaving every other entry and the
entry order untouched (Python `dict` item assignment). -/
def setKey : List (String × Doc) → String → Doc → List (String × Doc)
  | [], _, _ => []
  | (k, d) :: rest, key, v =>
    if k = key then (k, v) :: setKey rest key v else (k, d) :: setKey rest key v

/-- Remove the entry with the given key (Python `dict.pop`). -/
def eraseKey : List (String × Doc) → String → List (String × Doc)
  | [], _ => []
  | (k, d) :: rest, key => if k = key then rest else (k, d) :: eraseKey rest key

/-- Python `dict.update`: values of existing keys are overwritten in
place, genuinely new keys are appended in the order of the argument. -/
def updateEntries (old new : List (String × Doc)) : List (String × Doc) :=
  (old.map fun e =>
    match lookup new e.1 with
    | some v => (e.1, v)
    | none => e) ++
  new.filter fun e => (lookup old e.1).isNone

/-- Lowercase a string (ASCII, which is all the editor compares). -/
def lowerStr (s : String) : String := String.mk (s.data.map Char.toLower)

/-- Split a character list at every occurrence of the separator, empty
pieces kept — the behavior of Python `str.split(sep)`. -/
def splitSep (sep : Char) : List Char → List (List Char)
  | [] => [[]]
  | c :: rest =>
    let r := splitSep sep rest
    if c = sep then [] :: r
    else
      match r with
      | h :: t => (c :: h) :: t
      | [] => [[c]]

/-- Python `line.split(" ")`. -/
def splitSpace (s : String) : List String := (splitSep ' ' s.data).map String.mk

/-- A slash-separated address argument as a segment list. -/
def splitSlash (s : String) : List String :=
  ((splitSep '/' s.data).map String.mk).filter (· ≠ "")

/-- Numeric value of a list of decimal digit characters. -/
def digitsToNat (cs : List Char) : Nat :=
  cs.foldl (fun a c => a * 10 + (c.toNat - 48)) 0

/-- A sequence index segment: a numeral string converted to an integer
(`int(index)` on a non-negative numeral). -/
def parseIndex (s : String) : Option Nat :=
  if s.data ≠ [] ∧ s.data.all Char.isDigit then some (digitsToNat s.data) else none

/-- Modelled from the spec: `data_utils.get_data_by_path` (the module is
absent from the sources; only its callers are present).  `resolve`
walks each segment of the address: at a `Mapping` the segment must be
an existing key, at a `Sequence` it must parse as an in-bounds index,
anything else fails naming the first offending segment. -/
def get_data_by_path : Doc → List String → Except String Doc
  | d, [] => .ok d
  | .map entries, seg :: rest =>
    match lookup entries seg with
    | some child => get_data_by_path child rest
    | none => .error seg
  | .seq items, seg :: rest =>
    match parseIndex seg with
    | some n =>
      match items[n]? with
      | some child => get_data_by_path child rest
      | none => .error seg
    | none => .error seg
  | _, seg :: _ => .error seg

/-- Modelled from the spec: `data_utils.change_data_by_path` (the module
is absent from the sources).  `replace` returns a new document where
the subtree at the address is the new value; the containers along the
path are rebuilt and unrelated siblings are kept; the empty address
replaces the whole document. -/
def change_data_by_path : Doc → List String → Doc → Except String Doc
  | _, [], v => .ok v
  | .map entries, seg :: rest, v =>
    match lookup entries seg with
    | some child =>
      (change_data_by_path child rest v).map fun c => .map (setKey entries seg c)
    | none => .error seg
  | .seq items, seg :: rest, v =>
    match parseIndex seg with
    | some n =>
      match items[n]? with
      | some child =>
        (change_data_by_path child rest v).map fun c => .seq (items.set n c)
      | none => .error seg
    | none => .error seg
  | _, seg :: _, _ => .error seg

/-- At the given node, do the two segments necessarily select different
children?  Keys of a mapping are compared as strings; index segments of
a sequence are compared after numeral canonicalization (so `"1"` and
`"01"` are the same position, not siblings). -/
def divergeAt : Doc → String → String → Prop
  | .seq _, s, t => parseIndex s ≠ parseIndex t
  | _, s, t => s ≠ t

/-- Case-insensitive boolean literal (`true` / `false`). -/
def parseBool (s : String) : Option Bool :=
  if lowerStr s = "true" then some true
  else if lowerStr s = "false" then some false
  else none

/-- Integer literal: an optional minus sign followed by decimal digits. -/
def parseIntLit (s : String) : Option Int :=
  match s.toList with
  | [] => none
  | '-' :: rest =>
    if rest ≠ [] ∧ rest.all Char.isDigit then some (-(digitsToNat rest : Int)) else none
  | cs => if cs.all Char.isDigit then some (digitsToNat cs : Int) else none

/-- Floating-point literal: optional minus sign, then digits, one dot,
digits, at least one digit overall.  The value `(m, e)` is the exact
decimal `m * 10 ^ (-e)`. -/
def parseFloatLit (s : String) : Option (Int × Nat) :=
  let go : List Char → Option (Int × Nat) := fun cs =>
    let ip := cs.takeWhile (· ≠ '.')
    match cs.dropWhile (· ≠ '.') with
    | '.' :: fp =>
      if ip.all Char.isDigit ∧ fp.all Char.isDigit ∧ (ip ≠ [] ∨ fp ≠ []) then
        some ((digitsToNat (ip ++ fp) : Int), fp.length)
      else none
    | _ => none
  match s.toList with
  | '-' :: rest => (go rest).map (fun p => (-p.1, p.2))
  | cs => go cs

/-- Drop leading whitespace characters. -/
def skipWs : List Char → List Char
  | c :: rest =>
    if c = ' ' ∨ c = '\t' ∨ c = '\n' ∨ c = '\r' then skipWs rest else c :: rest
  | [] => []

/-- Consume the body of a double-quoted string literal up to the closing
quote (escape sequences are outside the notation this model accepts). -/
def takeStringBody : List Char → Option (List Char × List Char)
  | [] => none
  | '"' :: rest => some ([], rest)
  | c :: rest => (takeStringBody rest).map fun p => (c :: p.1, p.2)

/-- Characters a numeric token inside a structured literal may use. -/
def isNumChar (c : Char) : Bool := c.isDigit || c = '-' || c = '.'

mutual

/-- Fuel-indexed recursive-descent parser for one structured-notation
value: `null`, booleans, numbers, double-quoted strings, `[...]`
sequences and string-keyed mappings in brace notation. -/
def parseVal : Nat → List Char → Option (Doc × List Char)
  | 0, _ => none
  | fuel + 1, cs0 =>
    match skipWs cs0 with
    | 'n' :: 'u' :: 'l' :: 'l' :: rest => some (.null, rest)
    | 't' :: 'r' :: 'u' :: 'e' :: rest => some (.bool true, rest)
    | 'f' :: 'a' :: 'l' :: 's' :: 'e' :: rest => some (.bool false, rest)
    | '"' :: rest =>
      (takeStringBody rest).map fun p => (.str (String.mk p.1), p.2)
    | '[' :: rest => (parseItems fuel rest).map fun p => (.seq p.1, p.2)
    | '{' :: rest => (parseEntries fuel rest).map fun p => (.map p.1, p.2)
    | cs =>
      let chunk := cs.takeWhile isNumChar
      let rest := cs.dropWhile isNumChar
      match parseIntLit (String.mk chunk) with
      | some n => some (.int n, rest)
      | none =>
        match parseFloatLit (String.mk chunk) with
        | some p => some (.flt p.1 p.2, rest)
        | none => none

/-- Items of a sequence literal after the opening bracket. -/
def parseItems : Nat → List Char → Option (List Doc × List Char)
  | 0, _ => none
  | fuel + 1, cs0 =>
    match skipWs cs0 with
    | ']' :: rest => some ([], rest)
    | cs =>
      match parseVal fuel cs with
      | none => none
      | some (d, rest1) =>
        match skipWs rest1 with
        | ',' :: rest2 =>
          (parseItems fuel rest2).map fun p => (d :: p.1, p.2)
        | ']' :: rest2 => some ([d], rest2)
        | _ => none

/-- Entries of a mapping literal after the opening brace; keys are
double-quoted strings followed by a colon. -/
def parseEntries : Nat → List Char → Option (List (String × Doc) × List Char)
  | 0, _ => none
  | fuel + 1, cs0 =>
    match skipWs cs0 with
    | '}' :: rest => some ([], rest)
    | '"' :: rest =>
      match takeStringBody rest with
      | none => none
      | some (key, rest1) =>
        match skipWs rest1 with
        | ':' :: rest2 =>
          match parseVal fuel rest2 with
          | none => none
          | some (d, rest3) =>
            match skipWs rest3 with
            | ',' :: rest4 =>
              (parseEntries fuel rest4).map fun p => ((String.mk key, d) :: p.1, p.2)
            | '}' :: rest4 => some ([(String.mk key, d)], rest4)
            | _ => none
        | _ => none
    | _ => none

end

/-- Structured literal: a mapping or sequence written in the brace or
bracket notation, consuming the whole input.  The fuel is ample for any
input since every recursive descent consumes at least one character. -/
def parseStructured (s : String) : Option Doc :=
  match parseVal (2 * s.length + 2) s.toList with
  | some (d, rest) =>
    match skipWs rest, d with
    | [], .seq items => some (.seq items)
    | [], .map entries => some (.map entries)
    | _, _ => none
  | none => none

/-- Modelled from the spec: `data_utils.smart_cast` (the module is
absent from the sources).  Interprets the raw string, in order, as a
boolean literal, an integer literal, a floating-point literal, or a
structured literal, and otherwise returns the original string; the
function is total by construction. -/
def smart_cast (raw : String) : Doc :=
  match parseBool raw with
  | some b => .bool b
  | none =>
    match parseIntLit raw with
    | some n => .int n
    | none =>
      match parseFloatLit raw with
      | some p => .flt p.1 p.2
      | none =>
        match parseStructured raw with
        | some d => d
        | none => .str raw

/-- The cast the navigator applies when storing a value: values typed at
the prompt are strings and get smart-cast; an already structured value
is stored as it is (the spec types `smart_cast` on strings). -/
def smartCastDoc : Doc → Doc
  | .str s => smart_cast s
  | d => d

/-- Decimal rendering of the float `m * 10 ^ (-e)` when one is forced
through `str` (display adapter detail, not exercised by the verified
commands). -/
def fltPyStr (m : Int) (e : Nat) : String :=
  if e = 0 then toString m ++ ".0" else toString m ++ "e-" ++ toString e

mutual

/-- Python `str` of a value, as far as the commands under proof observe
it (the console pretty-printer is an external display adapter). -/
def pyStr : Doc → String
  | .null => "None"
  | .bool b => if b then "True" else "False"
  | .int n => toString n
  | .flt m e => fltPyStr m e
  | .str s => s
  | .seq items => "[" ++ pyStrList items ++ "]"
  | .map entries => "\x7b" ++ pyStrEntries entries ++ "\x7d"

def pyStrList : List Doc → String
  | [] => ""
  | [d] => pyStr d
  | d :: rest => pyStr d ++ ", " ++ pyStrList rest

def pyStrEntries : List (String × Doc) → String
  | [] => ""
  | [(k, d)] => k ++ ": " ++ pyStr d
  | (k, d) :: rest => k ++ ": " ++ pyStr d ++ ", " ++ pyStrEntries rest

end

/-- The numeric value of a Python number as an exact decimal
`m * 10 ^ (-e)`; booleans count as 0 / 1 since `bool` is a subclass of
`int`. -/
def numVal : Doc → Option (Int × Nat)
  | .int n => some (n, 0)
  | .flt m e => some (m, e)
  | .bool b => some (if b then (1, 0) else (0, 0))
  | _ => none

/-- Equality of two exact decimals by cross-multiplication. -/
def decEqVal (a b : Int × Nat) : Bool :=
  a.1 * (10 : Int) ^ b.2 == b.1 * (10 : Int) ^ a.2

mutual

/-- Python `==` on the values the editor holds: numbers (booleans
included) compare by value, strings and `None` by themselves, lists
elementwise and dictionaries by key lookup. -/
def pyEq : Doc → Doc → Bool
  | .int m, b => match numVal b with | some y => decEqVal (m, 0) y | none => false
  | .flt m e, b => match numVal b with | some y => decEqVal (m, e) y | none => false
  | .bool v, b =>
    match numVal b with
    | some y => decEqVal (if v then (1, 0) else (0, 0)) y
    | none => false
  | .str s, .str t => s == t
  | .str _, _ => false
  | .null, .null => true
  | .null, _ => false
  | .seq xs, .seq ys => pyEqList xs ys
  | .seq _, _ => false
  | .map xs, .map ys => xs.length == ys.length && pyEqEntries xs ys
  | .map _, _ => false

def pyEqList : List Doc → List Doc → Bool
  | [], [] => true
  | x :: xs, y :: ys => pyEq x y && pyEqList xs ys
  | _, _ => false

def pyEqEntries : List (String × Doc) → List (String × Doc) → Bool
  | [], _ => true
  | (k, v) :: rest, ys =>
    (match lookup ys k with
     | some w => pyEq v w
     | none => false) &&
    pyEqEntries rest ys

end

/-- Remove the first occurrence of a value from a list under Python
`==`; `none` when the value is absent (Python `list.remove` raises
`ValueError` there). -/
def removeFirst (items : List Doc) (v : Doc) : Option (List Doc) :=
  match items with
  | [] => none
  | x :: rest =>
    if pyEq x v then some rest else (removeFirst rest v).map (x :: ·)

/-- The session state of `data_navigator.DataNavigator`: the document,
the working address (root is the empty list of segments), the source
file name and the literal-mode flag. -/
structure DataNavigator where
  data : Doc
  path : List String
  filename : String
  literal : Bool

/-- Python exceptions the embedded handlers can let escape, plus
`SystemExit` (what `sys.exit` raises). -/
inductive Exn where
  | indexError
  | valueError
  | typeError
  | navError (seg : String)
  | systemExit (code : Nat)

/-- Result of one handler invocation: the session state after it, the
lines it printed, and the exception that escaped it, if any. -/
structure CmdOut where
  nav : DataNavigator
  out : List String
  exn : Option Exn

/-- Modelled from the spec: the `DataNavigator.get_data` method the
handlers call (absent from `data_navigator.py`, which only has the
`cur_data` property for the working address).  `"current"` resolves the
working address; any other argument is read as a slash-separated
address from the root. -/
def get_data (dn : DataNavigator) (p : String) : Except String Doc :=
  if p = "current" then get_data_by_path dn.data dn.path
  else get_data_by_path dn.data (splitSlash p)

/-- Modelled from the spec: the `DataNavigator.change_data` method the
handlers call (absent from `data_navigator.py`; the `cur_data` setter
shows the casting rule).  The value is smart-cast when literal mode is
on or the caller forces the cast, then written through `replace` at the
addressed subtree, and the returned document becomes the current one. -/
def change_data (dn : DataNavigator) (value : Doc) (p : String) (force_type : Bool) :
    CmdOut :=
  let v := if dn.literal || force_type then smartCastDoc value else value
  let target := if p = "current" then dn.path else splitSlash p
  match change_data_by_path dn.data target v with
  | .ok d2 => ⟨{ dn with data := d2 }, [], none⟩
  | .error seg => ⟨dn, [], some (.navError seg)⟩

/-- `" ".join(args)`. -/
def joinSpace (args : List String) : String := String.intercalate " " args

/-- The guard of `append_data`'s scalar branch:
`isinstance(d, (int, str, float))`; Python booleans pass the `int`
check. -/
def isNumStr : Doc → Bool
  | .int _ => true
  | .flt _ _ => true
  | .str _ => true
  | .bool _ => true
  | _ => false

def isStrDoc : Doc → Bool
  | .str _ => true
  | _ => false

/-- The integer a Python `int`-family value denotes (`True` is 1). -/
def toIntVal : Doc → Int
  | .int n => n
  | .bool b => if b then 1 else 0
  | _ => 0

/-- `cur_data + new_data` on two non-string members of the scalar
family: any float makes the sum a float (decimals aligned exactly),
otherwise integers add. -/
def numAdd (a b : Doc) : Doc :=
  match a, b with
  | .flt m e, _ =>
    let p := (numVal b).getD (0, 0)
    let ex := max e p.2
    .flt (m * (10 : Int) ^ (ex - e) + p.1 * (10 : Int) ^ (ex - p.2)) ex
  | _, .flt m e =>
    let p := (numVal a).getD (0, 0)
    let ex := max e p.2
    .flt (p.1 * (10 : Int) ^ (ex - p.2) + m * (10 : Int) ^ (ex - e)) ex
  | _, _ => .int (toIntVal a + toIntVal b)

/-- `str()` of a member of the scalar family, as the append handler
interpolates it. -/
def pyStrOfScalar : Doc → String
  | .str s => s
  | .int n => toString n
  | .bool b => if b then "True" else "False"
  | .flt m e => fltPyStr m e
  | _ => ""

/-- What the `append` match decides for a pair (new value, current
value): mutate the current container in place, store a formatted
string through `change_data`, or reject. -/
inductive AppendRes where
  | write (v : Doc)
  | writeCast (s : String)
  | reject

/-- The `match (new_data, cur_data)` of `actions.append_data`: two
dictionaries are merged with `update`, two lists concatenated with
`extend`, two scalars of the `int`/`str`/`float` family are
concatenated as strings when either is a string and summed otherwise
(the result is interpolated into an f-string either way), and every
other pair is rejected. -/
def appendCore (new cur : Doc) : AppendRes :=
  match new, cur with
  | .map ne, .map ce => .write (.map (updateEntries ce ne))
  | .seq ni, .seq ci => .write (.seq (ci ++ ni))
  | a, b =>
    if isNumStr a && isNumStr b then
      if isStrDoc b || isStrDoc a then
        .writeCast (pyStrOfScalar b ++ pyStrOfScalar a)
      else
        .writeCast (pyStrOfScalar (numAdd b a))
    else
      .reject

/-- `actions.append_data`: smart-cast the joined arguments, read the
current node, and apply the append match.  The container branches
mutate the aliased current object, so the document holds the merged
container; the scalar branch goes through `change_data` with the
default cast flag. -/
def append_data (dn : DataNavigator) (args : List String) : CmdOut :=
  let new := smart_cast (joinSpace args)
  match get_data dn "current" with
  | .error seg => ⟨dn, [], some (.navError seg)⟩
  | .ok cur =>
    match appendCore new cur with
    | .write v =>
      match change_data_by_path dn.data dn.path v with
      | .ok d2 => ⟨{ dn with data := d2 }, [], none⟩
      | .error seg => ⟨dn, [], some (.navError seg)⟩
    | .writeCast s => change_data dn (.str s) "current" false
    | .reject => ⟨dn, ["Could not append " ++ pyStr new ++ "."], none⟩

/-- `is_index` inside `actions.move`: a key of a dictionary, or a digit
string denoting an in-range position of a list. -/
def is_index (index : String) (data : Doc) : Bool :=
  match data with
  | .map entries => (lookup entries index).isSome
  | .seq items =>
    index ≠ "" && index.toList.all Char.isDigit &&
      decide (digitsToNat index.toList < items.length)
  | _ => false

/-- State threaded through one `cd` invocation. -/
structure MoveSt where
  nav : DataNavigator
  out : List String
  exn : Option Exn

/-- One segment of `actions.move`: `".."` ascends unless already at the
root (then an error line is printed), `"\\"` resets to the root, a
segment that `is_index` accepts against the node at the working address
descends, anything else prints an error line; the loop then continues
with the next segment either way. -/
def moveStep (st : MoveSt) (seg : String) : MoveSt :=
  match st.exn with
  | some _ => st
  | none =>
    if seg = ".." then
      if st.nav.path ≠ [] then
        { st with nav := { st.nav with path := st.nav.path.dropLast } }
      else
        { st with out := st.out ++ ["ERROR: You are at root level."] }
    else if seg = "\\" then
      { st with nav := { st.nav with path := [] } }
    else
      match get_data_by_path st.nav.data st.nav.path with
      | .error seg2 => { st with exn := some (.navError seg2) }
      | .ok cur =>
        if is_index seg cur then
          { st with nav := { st.nav with path := st.nav.path ++ [seg] } }
        else
          { st with out := st.out ++ ["ERROR: Cannot navigate into this type."] }

/-- The segment loop of `actions.move`, left to right. -/
def moveSteps (st : MoveSt) (segs : List String) : MoveSt :=
  segs.foldl moveStep st

/-- `actions.move` (`cd`): process every segment, then pretty-print the
node at the resulting working address. -/
def move (dn : DataNavigator) (indexes : List String) : CmdOut :=
  let st := moveSteps ⟨dn, [], none⟩ indexes
  match st.exn with
  | some e => ⟨st.nav, st.out, some e⟩
  | none =>
    match get_data_by_path st.nav.data st.nav.path with
    | .ok cur => ⟨st.nav, st.out ++ [pyStr cur], none⟩
    | .error seg => ⟨st.nav, st.out, some (.navError seg)⟩

/-- `DataNavigator.flag_setter`: only a public attribute currently
holding a boolean may be assigned; of the public state only `literal`
always is one, and `data` is when the document itself is a boolean. -/
def flag_setter (dn : DataNavigator) (flag : String) (value : Bool) : CmdOut :=
  if flag = "literal" then ⟨{ dn with literal := value }, [], none⟩
  else if flag = "data" ∧ isBoolData dn.data then ⟨{ dn with data := .bool value }, [], none⟩
  else ⟨dn, ["Coulself't find flag."], none⟩
where
  isBoolData : Doc → Bool
    | .bool _ => true
    | _ => false

/-- `actions.set_flag` (`flag`): the handler evaluates `args[1]` before
its arity guard, so fewer than two arguments raise `IndexError`; with
two string arguments whose second lowercases to `on`/`off` it calls
`flag_setter`, and otherwise prints the usage line. -/
def set_flag (dn : DataNavigator) (args : List String) : CmdOut :=
  match args with
  | [] => ⟨dn, [], some .indexError⟩
  | [_] => ⟨dn, [], some .indexError⟩
  | a0 :: a1 :: rest =>
    let two_args := rest.isEmpty
    let value_is_valid := lowerStr a1 = "on" || lowerStr a1 = "off"
    if two_args && value_is_valid then
      flag_setter dn a0 (lowerStr a1 = "on")
    else
      ⟨dn, ["usage: flag <flag> [bool value]"], none⟩

/-- The loop of `actions.del_val`.  `cur` is the object the handler
read once before the loop: the dictionary branch filters that stale
object each iteration, while the list branch calls `remove` on it —
mutating it — and then writes the `None` that `remove` returned through
`change_data` with the cast forced; a missing value raises
`ValueError`, and a scalar current node just prints a line. -/
def delValLoop (dn : DataNavigator) (out : List String) (cur : Doc) :
    List String → CmdOut
  | [] => ⟨dn, out, none⟩
  | v :: rest =>
    let ev := if dn.literal then smart_cast v else .str v
    match cur with
    | .map entries =>
      let filtered : Doc := .map (entries.filter fun e => !(pyEq e.2 ev))
      match change_data dn filtered "current" true with
      | ⟨dn2, o2, none⟩ => delValLoop dn2 (out ++ o2) cur rest
      | ⟨dn2, o2, some e⟩ => ⟨dn2, out ++ o2, some e⟩
    | .seq items =>
      match removeFirst items ev with
      | none => ⟨dn, out, some .valueError⟩
      | some items2 =>
        match change_data dn .null "current" true with
        | ⟨dn2, o2, none⟩ => delValLoop dn2 (out ++ o2) (.seq items2) rest
        | ⟨dn2, o2, some e⟩ => ⟨dn2, out ++ o2, some e⟩
    | _ =>
      delValLoop dn (out ++ ["Could not delete " ++ pyStr ev ++ "."]) cur rest

/-- `actions.del_val` (`del-val`). -/
def del_val (dn : DataNavigator) (values : List String) : CmdOut :=
  match get_data dn "current" with
  | .error seg => ⟨dn, [], some (.navError seg)⟩
  | .ok cur => delValLoop dn [] cur values

/-- The loop of `actions.del_key`.  The handler pops keys from the
object it read once; on a dictionary the pop mutates the aliased
subtree (a missing key's `KeyError` is caught and reported with the
handler's unformatted message), on a list `pop` with a string argument
raises an uncaught `TypeError`, and on a scalar a line is printed. -/
def delKeyLoop (dn : DataNavigator) (out : List String) (cur : Doc) :
    List String → CmdOut
  | [] => ⟨dn, out, none⟩
  | k :: rest =>
    match cur with
    | .map entries =>
      if (lookup entries k).isSome then
        let entries2 := eraseKey entries k
        match change_data_by_path dn.data dn.path (.map entries2) with
        | .ok d2 => delKeyLoop { dn with data := d2 } out (.map entries2) rest
        | .error seg => ⟨dn, out, some (.navError seg)⟩
      else
        delKeyLoop dn (out ++ ["No value of index \x7bi\x7d in data."]) cur rest
    | .seq _ => ⟨dn, out, some .typeError⟩
    | _ =>
      delKeyLoop dn (out ++ ["Can only del-key from dictionary or list only."]) cur rest

/-- `actions.del_key` (`del-key`). -/
def del_key (dn : DataNavigator) (indexes : List String) : CmdOut :=
  match get_data dn "current" with
  | .error seg => ⟨dn, [], some (.navError seg)⟩
  | .ok cur => delKeyLoop dn [] cur indexes

/-- `actions.set_value` (`set`): store the joined arguments (smart-cast
only through literal mode) at the working address, then show the node
now there. -/
def set_value (dn : DataNavigator) (new_value : List String) : CmdOut :=
  match change_data dn (.str (joinSpace new_value)) "current" false with
  | ⟨dn2, o2, none⟩ =>
    match get_data dn2 "current" with
    | .ok cur => ⟨dn2, o2 ++ [pyStr cur], none⟩
    | .error seg => ⟨dn2, o2, some (.navError seg)⟩
  | r => r

/-- `actions.cast_value` (`cast`): with exactly one argument, smart-cast
the value at that address in place (`"."` meaning the working address);
otherwise print the usage line. -/
def cast_value (dn : DataNavigator) (args : List String) : CmdOut :=
  match args with
  | [a] =>
    let p := if a = "." then "current" else a
    match get_data dn p with
    | .error seg => ⟨dn, [], some (.navError seg)⟩
    | .ok d => change_data dn (smartCastDoc d) p true
  | _ => ⟨dn, ["Usage: cast <path>"], none⟩

/-- `actions.uncast_value` (`uncast`): with exactly one argument, store
`str` of the value at that address — though the forced cast of
`change_data` immediately re-interprets that string; otherwise print
the usage line. -/
def uncast_value (dn : DataNavigator) (args : List String) : CmdOut :=
  match args with
  | [a] =>
    let p := if a = "." then "current" else a
    match get_data dn p with
    | .error seg => ⟨dn, [], some (.navError seg)⟩
    | .ok d => change_data dn (.str (pyStr d)) p true
  | _ => ⟨dn, ["Usage: uncast <path>"], none⟩

/-- `actions.list_data` (`ls`/`list`): pretty-print the current node. -/
def list_data (dn : DataNavigator) : CmdOut :=
  match get_data dn "current" with
  | .ok cur => ⟨dn, [pyStr cur], none⟩
  | .error seg => ⟨dn, [], some (.navError seg)⟩

/-- `actions.print_public` (`print`): list the public variable names, or
print each requested one (or a not-found note). -/
def print_public (dn : DataNavigator) (var_names : List String) : CmdOut :=
  if var_names.isEmpty then
    ⟨dn, ["Available variables:  data, filename, literal, path"], none⟩
  else
    ⟨dn, var_names.map fun v =>
      if v = "data" then "data: " ++ pyStr dn.data
      else if v = "filename" then "filename: " ++ dn.filename
      else if v = "literal" then "literal: " ++ (if dn.literal then "True" else "False")
      else if v = "path" then "path: " ++ String.intercalate "/" dn.path
      else v ++ ": Variable not found", none⟩

/-- `actions.restart` (`restart`): reload the document from the source
file (the format adapter is abstracted as the ambient file system `fs`)
and show the current node. -/
def restart (fs : String → Doc) (dn : DataNavigator) : CmdOut :=
  let dn2 := { dn with data := fs dn.filename }
  match get_data dn2 "current" with
  | .ok cur => ⟨dn2, [pyStr cur], none⟩
  | .error seg => ⟨dn2, [], some (.navError seg)⟩

/-- `actions.run_command` (`!`): a host shell escape; no session state
is touched, and an empty argument list is reported. -/
def run_command (dn : DataNavigator) (args : List String) : CmdOut :=
  if args.isEmpty then ⟨dn, ["ERROR: No command given."], none⟩ else ⟨dn, [], none⟩

/-- `actions.save` (`save`): persist the document (external adapter) and
report the file name. -/
def saveCmd (dn : DataNavigator) : CmdOut :=
  ⟨dn, ["Saved at " ++ dn.filename ++ "."], none⟩

/-- `actions.clear_screen` (`cls`/`clear`). -/
def clear_screen (dn : DataNavigator) : CmdOut := ⟨dn, [], none⟩

/-- `actions.exit_repl` (`exit`/`quit`): `sys.exit(0)` raises
`SystemExit` with the success status. -/
def exit_repl (dn : DataNavigator) : CmdOut := ⟨dn, [], some (.systemExit 0)⟩

/-- The names registered in the `commands` table of `actions.py`. -/
def commandNames : List String :=
  ["append", "cast", "cls", "clear", "del-key", "del-val", "exit", "quit", "cd",
   "ls", "list", "print", "restart", "!", "save", "flag", "set", "+l", "uncast"]

mutual

/-- The command table lookup: handler for each registered name, invoked
with the session and the argument tokens.  `fs` abstracts the format
adapters used by `restart`. -/
def dispatch (fs : String → Doc) (name : String) (dn : DataNavigator)
    (args : List String) : CmdOut :=
  if name = "append" then append_data dn args
  else if name = "cast" then cast_value dn args
  else if name = "cls" ∨ name = "clear" then clear_screen dn
  else if name = "del-key" then del_key dn args
  else if name = "del-val" then del_val dn args
  else if name = "exit" ∨ name = "quit" then exit_repl dn
  else if name = "cd" then move dn args
  else if name = "ls" ∨ name = "list" then list_data dn
  else if name = "print" then print_public dn args
  else if name = "restart" then restart fs dn
  else if name = "!" then run_command dn args
  else if name = "save" then saveCmd dn
  else if name = "flag" then set_flag dn args
  else if name = "set" then set_value dn args
  else if name = "+l" then temporary_literal fs dn args
  else if name = "uncast" then uncast_value dn args
  else ⟨dn, ["ERROR: Invalid command."], none⟩
termination_by 2 * args.length + 2

/-- `actions.temporary_literal` (`+l`): when the first argument names a
command, remember the literal flag, force it on through `set_flag`, run
the command on the remaining arguments, and restore the remembered flag
in a `finally` — so the restore happens even when the wrapped command
raises, and the exception then escapes with the flag restored.
Otherwise print the usage line. -/
def temporary_literal (fs : String → Doc) (dn : DataNavigator)
    (args : List String) : CmdOut :=
  match args with
  | func :: rest =>
    if func ∈ commandNames then
      let tmp_literal := dn.literal
      let r1 := set_flag dn ["literal", "on"]
      let r2 := dispatch fs func r1.nav rest
      ⟨{ r2.nav with literal := tmp_literal }, r1.out ++ r2.out, r2.exn⟩
    else
      ⟨dn, ["Usage: +l <command> [args]"], none⟩
  | [] => ⟨dn, ["Usage: +l <command> [args]"], none⟩
termination_by 2 * args.length + 1

end

/-- One iteration of `DataNavigator.run`: split the line on spaces, the
first token selects the command; an unknown token is reported and the
loop stays in its single state.  The loop body has no exception
handler, so any exception a handler raises escapes it. -/
def replStep (fs : String → Doc) (dn : DataNavigator) (line : String) : CmdOut :=
  match splitSpace line with
  | [] => ⟨dn, ["ERROR: Invalid command."], none⟩
  | command :: args =>
    if command ∈ commandNames then dispatch fs command dn args
    else ⟨dn, ["ERROR: Invalid command."], none⟩

/-- Lowercased extension of a file name, from the last dot on
(`os.path.splitext(...)[1].lower()`). -/
def extOf (filename : String) : String :=
  let rev := filename.toList.reverse
  let pre := rev.takeWhile (· ≠ '.')
  if pre.length = filename.toList.length then ""
  else lowerStr (String.mk ('.' :: pre.reverse))

/-- The formats `file_utils` dispatches on. -/
def supportedExt (e : String) : Bool := e == ".json" || e == ".yaml"

/-- `file_utils.open_file` (called `read_file` at its call sites): the
parsed content itself comes from the external format adapter and is
passed in as `content`; an unsupported extension raises `SystemExit`
with a message, which terminates the process with a failure status. -/
def open_file (filename : String) (content : Doc) : Except String Doc :=
  if supportedExt (extOf filename) then .ok content
  else .error "Unsupported file format."

/-- `file_utils.save_file`: same extension dispatch on the way out. -/
def save_file (filename : String) : Except String Unit :=
  if supportedExt (extOf filename) then .ok ()
  else .error "Unsupported file format."

/-- The command-line surface of `main.py`. -/
structure CliArgs where
  filename : String
  new_value : Option String
  pathArg : List String
  literal : Bool
  make : Bool

/-- How the process run ends, before the interactive loop if it ends
there: `fatal msg` is `SystemExit` carrying a message (exit status 1,
message on stderr), `oneShotDone` is the one-shot edit running to
completion (exit status 0), `interactive` enters the REPL. -/
inductive MainOutcome where
  | fatal (msg : String)
  | oneShotDone
  | interactive (dn : DataNavigator)

/-- The exit status an outcome carries; entering the loop has none yet
(the loop ends through the `exit` command's `SystemExit 0`). -/
def statusOf : MainOutcome → Option Nat
  | .fatal _ => some 1
  | .oneShotDone => some 0
  | .interactive _ => none

/-- `main.main`: an existing file is read (unsupported formats are
fatal); a missing file is created empty under `--make` and is otherwise
fatal; with `--new_value` the process performs one edit (smart-cast
under `--literal`) and saves, else it enters the interactive loop.
`fileExists` and `content` stand for the file system the adapters
touch. -/
def main_run (fileExists : Bool) (content : Doc) (a : CliArgs) : MainOutcome :=
  let loaded : Except String Doc :=
    if fileExists then open_file a.filename content
    else if a.make then
      match save_file a.filename with
      | .ok _ => .ok (.str "")
      | .error m => .error m
    else .error ("File " ++ a.filename ++ " does not exist.")
  match loaded with
  | .error m => .fatal m
  | .ok d =>
    match a.new_value with
    | none => .interactive ⟨d, a.pathArg, a.filename, a.literal⟩
    | some v =>
      let nv := if a.literal then smart_cast v else .str v
      match change_data_by_path d a.pathArg nv with
      | .ok _ =>
        match save_file a.filename with
        | .ok _ => .oneShotDone
        | .error m => .fatal m
      | .error _ => .fatal "uncaught exception while resolving the target address"

def isMapDoc : Doc → Bool
  | .map _ => true
  | _ => false

def isSeqDoc : Doc → Bool
  | .seq _ => true
  | _ => false

/-- The operand pairs `append_data`'s match accepts: two dictionaries,
two lists, or two members of Python's `int`/`str`/`float` scalar family
(booleans included, being `int`s). -/
def coveredPair (new cur : Doc) : Bool :=
  (isMapDoc new && isMapDoc cur) || (isSeqDoc new && isSeqDoc cur) ||
    (isNumStr new && isNumStr cur)

/-- A segment the `cd` walk rejects at the given state: `".."` while the
working address is at the root, or a non-special segment that
`is_index` refuses against the node the walk has reached. -/
def invalidSeg (st : MoveSt) (seg : String) : Bool :=
  if seg = ".." then st.nav.path.isEmpty
  else if seg = "\\" then false
  else
    match get_data_by_path st.nav.data st.nav.path with
    | .ok cur => !(is_index seg cur)
    | .error _ => false

/-- The error line `move` prints for a rejected segment. -/
def errLineFor (seg : String) : String :=
  if seg = ".." then "ERROR: You are at root level."
  else "ERROR: Cannot navigate into this type."

/-! ## Lemmas about the path resolver -/

@[simp]
theorem get_data_by_path_nil (d : Doc) : get_data_by_path d [] = .ok d := by
  cases d <;> rfl

@[simp]
theorem change_data_by_path_nil (d v : Doc) : change_data_by_path d [] v = .ok v := by
  cases d <;> rfl

theorem lookup_setKey_self (es : List (String × Doc)) (k : String) (v w : Doc)
    (h : lookup es k = some w) : lookup (setKey es k v) k = some v := by
  induction es with
  | nil => simp [lookup] at h
  | cons e rest ih =>
    obtain ⟨k0, d0⟩ := e
    by_cases hk : k0 = k
    · subst hk; simp [lookup, setKey]
    · simp only [lookup, setKey, if_neg hk] at h ⊢
      exact ih h

theorem lookup_setKey_ne (es : List (String × Doc)) (k : String) (v : Doc)
    (t : String) (h : t ≠ k) : lookup (setKey es k v) t = lookup es t := by
  induction es with
  | nil => simp [lookup, setKey]
  | cons e rest ih =>
    obtain ⟨k0, d0⟩ := e
    by_cases hk : k0 = k
    · have hne : ¬ (k0 = t) := fun hh => h (hh ▸ hk)
      simp only [setKey, if_pos hk, lookup, if_neg hne]
      exact ih
    · simp only [setKey, if_neg hk, lookup]
      by_cases ht : k0 = t
      · simp [ht]
      · simp only [if_neg ht]
        exact ih

/-- Writing through a valid address succeeds, and reading the address
back in the new document yields exactly the written value. -/
theorem change_roundtrip : ∀ (p : List String) (D w v : Doc),
    get_data_by_path D p = .ok w →
    ∃ D2, change_data_by_path D p v = .ok D2 ∧ get_data_by_path D2 p = .ok v := by
  intro p
  induction p with
  | nil => intro D w v _; exact ⟨v, by simp, by simp⟩
  | cons s rest ih =>
    intro D w v h
    cases D with
    | null => simp [get_data_by_path] at h
    | bool b => simp [get_data_by_path] at h
    | int n => simp [get_data_by_path] at h
    | flt q => simp [get_data_by_path] at h
    | str s2 => simp [get_data_by_path] at h
    | map entries =>
      cases hl : lookup entries s with
      | none => simp [get_data_by_path, hl] at h
      | some child =>
        simp only [get_data_by_path, hl] at h
        obtain ⟨D2, hc, hg⟩ := ih child w v h
        refine ⟨.map (setKey entries s D2), ?_, ?_⟩
        · simp [change_data_by_path, hl, hc, Except.map]
        · simp only [get_data_by_path, lookup_setKey_self entries s D2 child hl]
          exact hg
    | seq items =>
      cases hp : parseIndex s with
      | none => simp [get_data_by_path, hp] at h
      | some n =>
        cases hi : items[n]? with
        | none => simp [get_data_by_path, hp, hi] at h
        | some child =>
          simp only [get_data_by_path, hp, hi] at h
          obtain ⟨D2, hc, hg⟩ := ih child w v h
          have hlt : n < items.length := (List.getElem?_eq_some.mp hi).1
          refine ⟨.seq (items.set n D2), ?_, ?_⟩
          · simp [change_data_by_path, hp, hi, hc, Except.map]
          · simp only [get_data_by_path, hp, List.getElem?_set_eq_of_lt D2 hlt]
            exact hg

/-- Writing below a path that diverges from the read path at the node
`get_data_by_path D r` reaches leaves the value read there unchanged:
the replace operation rebuilds only the containers along its own path. -/
theorem change_frame : ∀ (r : List String) (D node v D2 : Doc) (s t : String)
    (p2 q2 : List String),
    get_data_by_path D r = .ok node →
    change_data_by_path D (r ++ s :: p2) v = .ok D2 →
    divergeAt node s t →
    get_data_by_path D2 (r ++ t :: q2) = get_data_by_path D (r ++ t :: q2) := by
  intro r
  induction r with
  | nil =>
    intro D node v D2 s t p2 q2 hg hc hdiv
    simp only [get_data_by_path_nil, Except.ok.injEq] at hg
    subst hg
    simp only [List.nil_append] at hc ⊢
    cases D with
    | null => simp [change_data_by_path] at hc
    | bool b => simp [change_data_by_path] at hc
    | int n => simp [change_data_by_path] at hc
    | flt q => simp [change_data_by_path] at hc
    | str s2 => simp [change_data_by_path] at hc
    | map entries =>
      have hne : s ≠ t := hdiv
      cases hl : lookup entries s with
      | none => simp [change_data_by_path, hl] at hc
      | some child =>
        cases hcc : change_data_by_path child p2 v with
        | error e => simp [change_data_by_path, hl, hcc, Except.map] at hc
        | ok c =>
          simp only [change_data_by_path, hl, hcc, Except.map, Except.ok.injEq] at hc
          subst hc
          simp only [get_data_by_path,
            lookup_setKey_ne entries s c t (fun hh => hne hh.symm)]
    | seq items =>
      have hne : parseIndex s ≠ parseIndex t := hdiv
      cases hp : parseIndex s with
      | none => simp [change_data_by_path, hp] at hc
      | some n =>
        cases hi : items[n]? with
        | none => simp [change_data_by_path, hp, hi] at hc
        | some child =>
          cases hcc : change_data_by_path child p2 v with
          | error e => simp [change_data_by_path, hp, hi, hcc, Except.map] at hc
          | ok c =>
            simp only [change_data_by_path, hp, hi, hcc, Except.map,
              Except.ok.injEq] at hc
            subst hc
            cases hpt : parseIndex t with
            | none => simp [get_data_by_path, hpt]
            | some m =>
              have hnm : n ≠ m := by
                intro hh; apply hne; rw [hp, hpt, hh]
              simp only [get_data_by_path, hpt, List.getElem?_set_ne hnm]
  | cons a r2 ih =>
    intro D node v D2 s t p2 q2 hg hc hdiv
    simp only [List.cons_append] at hc ⊢
    cases D with
    | null => simp [get_data_by_path] at hg
    | bool b => simp [get_data_by_path] at hg
    | int n => simp [get_data_by_path] at hg
    | flt q => simp [get_data_by_path] at hg
    | str s2 => simp [get_data_by_path] at hg
    | map entries =>
      cases hl : lookup entries a with
      | none => simp [get_data_by_path, hl] at hg
      | some child =>
        simp only [get_data_by_path, hl] at hg
        cases hcc : change_data_by_path child (r2 ++ s :: p2) v with
        | error e => simp [change_data_by_path, hl, hcc, Except.map] at hc
        | ok c =>
          simp only [change_data_by_path, hl, hcc, Except.map, Except.ok.injEq] at hc
          subst hc
          simp only [get_data_by_path, lookup_setKey_self entries a c child hl, hl]
          exact ih child node v c s t p2 q2 hg hcc hdiv
    | seq items =>
      cases hp : parseIndex a with
      | none => simp [get_data_by_path, hp] at hg
      | some n =>
        cases hi : items[n]? with
        | none => simp [get_data_by_path, hp, hi] at hg
        | some child =>
          simp only [get_data_by_path, hp, hi] at hg
          cases hcc : change_data_by_path child (r2 ++ s :: p2) v with
          | error e => simp [change_data_by_path, hp, hi, hcc, Except.map] at hc
          | ok c =>
            simp only [change_data_by_path, hp, hi, hcc, Except.map,
              Except.ok.injEq] at hc
            subst hc
            have hlt : n < items.length := (List.getElem?_eq_some.mp hi).1
            simp only [get_data_by_path, hp, List.getElem?_set_eq_of_lt c hlt, hi]
            exact ih child node v c s t p2 q2 hg hcc hdiv

/-! ## Claim theorems -/

/-- C1: for every document `D`, every address `p` valid in `D` and every
value `v`, replacing the subtree of `D` at `p` with `v` succeeds and
resolving `p` in the result yields `v`; moreover only the containers
along `p` are rebuilt: any address that diverges from `p` at a node
along the walk (a different key of that mapping, or a different
canonical index of that sequence) resolves in the new document to
exactly what it resolved to in `D`. -/
theorem replace_resolve_roundtrip_and_siblings_untouched
    (D w v : Doc) (p : List String)
    (hp : get_data_by_path D p = .ok w) :
    ∃ D2, change_data_by_path D p v = .ok D2 ∧
      get_data_by_path D2 p = .ok v ∧
      ∀ r s p2 t q2 node, p = r ++ s :: p2 →
        get_data_by_path D r = .ok node → divergeAt node s t →
        get_data_by_path D2 (r ++ t :: q2) = get_data_by_path D (r ++ t :: q2) := by
  obtain ⟨D2, hc, hg⟩ := change_roundtrip p D w v hp
  refine ⟨D2, hc, hg, ?_⟩
  intro r s p2 t q2 node hps hnode hdiv
  subst hps
  exact change_frame r D node v D2 s t p2 q2 hnode hc hdiv

/-- Witness for C1 at the document `{"a": {"y": 1}, "b": 2}`, the valid
address `["a", "y"]` and the new value `5`. -/
theorem replace_resolve_roundtrip_and_siblings_untouched_witness :
    ∃ D2, change_data_by_path (.map [("a", .map [("y", .int 1)]), ("b", .int 2)])
        ["a", "y"] (.int 5) = .ok D2 ∧
      get_data_by_path D2 ["a", "y"] = .ok (.int 5) ∧
      ∀ r s p2 t q2 node, (["a", "y"] : List String) = r ++ s :: p2 →
        get_data_by_path (.map [("a", .map [("y", .int 1)]), ("b", .int 2)]) r
          = .ok node →
        divergeAt node s t →
        get_data_by_path D2 (r ++ t :: q2) =
          get_data_by_path (.map [("a", .map [("y", .int 1)]), ("b", .int 2)])
            (r ++ t :: q2) :=
  replace_resolve_roundtrip_and_siblings_untouched
    (.map [("a", .map [("y", .int 1)]), ("b", .int 2)]) (.int 1) (.int 5)
    ["a", "y"] rfl

/-- C3: `smart_cast` is total by its type, `String → Doc`, and when none
of the stricter interpretations (boolean, integer, float, structured
literal) applies it falls back to the original string; on the examples,
`"true"` is the boolean true, `"42"` the integer 42, `"3.5"` the float
3.5, and `"hello"` the string `"hello"`. -/
theorem smart_cast_total_and_examples :
    smart_cast "true" = .bool true ∧
    smart_cast "42" = .int 42 ∧
    smart_cast "3.5" = .flt 35 1 ∧
    smart_cast "hello" = .str "hello" ∧
    (∀ s : String, parseBool s = none → parseIntLit s = none →
      parseFloatLit s = none → parseStructured s = none →
      smart_cast s = .str s) := by
  refine ⟨rfl, rfl, rfl, rfl, ?_⟩
  intro s h1 h2 h3 h4
  simp [smart_cast, h1, h2, h3, h4]

/-- Witness for C3's fallback clause at the input `"world"`. -/
theorem smart_cast_total_and_examples_witness :
    smart_cast "world" = .str "world" :=
  smart_cast_total_and_examples.2.2.2.2 "world" rfl rfl rfl rfl

/-- C2 counterexample: appending `2` to the current scalar `1` in
non-literal mode stores the string `"3"` — the handler interpolates the
sum into an f-string and non-literal mode stores it verbatim — so the
result is not the number 3. -/
theorem append_numeric_stores_string_counterexample :
    (append_data ⟨.int 1, [], "doc.json", false⟩ ["2"]).nav.data = .str "3" ∧
    Doc.str "3" ≠ Doc.int 3 :=
  ⟨rfl, fun h => Doc.noConfusion h⟩

/-- C2 amended: append merges two mappings and concatenates two
sequences as claimed; on two scalars of the numeric/string family the
result is the plain string concatenation when either operand is
textual, and otherwise the numeric sum rendered as a string (the
handler stores the f-string image of the sum, and non-literal mode
keeps it a string).  In particular appending 2 to 1 yields the string
`"3"`, appending 2 to `"1"` yields `"12"`, appending `{"b": 2}` to
`{"a": 1}` yields `{"a": 1, "b": 2}`, and appending `[3]` to `[1, 2]`
yields `[1, 2, 3]`. -/
theorem append_shapes_and_examples_amended :
    (append_data ⟨.map [("a", .int 1)], [], "doc.json", false⟩
        ["\x7b\"b\":2\x7d"]).nav.data = .map [("a", .int 1), ("b", .int 2)] ∧
    (append_data ⟨.seq [.int 1, .int 2], [], "doc.json", false⟩ ["[3]"]).nav.data
      = .seq [.int 1, .int 2, .int 3] ∧
    (append_data ⟨.int 1, [], "doc.json", false⟩ ["2"]).nav.data = .str "3" ∧
    (append_data ⟨.str "1", [], "doc.json", false⟩ ["2"]).nav.data = .str "12" ∧
    (∀ new cur : Doc, isNumStr new = true → isNumStr cur = true →
      (isStrDoc cur || isStrDoc new) = true →
      appendCore new cur = .writeCast (pyStrOfScalar cur ++ pyStrOfScalar new)) ∧
    (∀ new cur : Doc, isNumStr new = true → isNumStr cur = true →
      isStrDoc cur = false → isStrDoc new = false →
      appendCore new cur = .writeCast (pyStrOfScalar (numAdd cur new))) := by
  refine ⟨rfl, rfl, rfl, rfl, ?_, ?_⟩
  · intro new cur h1 h2 h3
    cases new <;> cases cur <;> simp_all [appendCore, isNumStr, isStrDoc]
  · intro new cur h1 h2 h3 h4
    cases new <;> cases cur <;> simp_all [appendCore, isNumStr, isStrDoc]

/-- Witness for C2's scalar clauses at the operands 2 and 1 (numeric
sum) and 2 and `"1"` (textual concatenation). -/
theorem append_shapes_and_examples_amended_witness :
    appendCore (.int 2) (.int 1) = .writeCast (pyStrOfScalar (numAdd (.int 1) (.int 2))) ∧
    appendCore (.int 2) (.str "1")
      = .writeCast (pyStrOfScalar (.str "1") ++ pyStrOfScalar (.int 2)) :=
  ⟨append_shapes_and_examples_amended.2.2.2.2.2 (.int 2) (.int 1) rfl rfl rfl rfl,
   append_shapes_and_examples_amended.2.2.2.2.1 (.int 2) (.str "1") rfl rfl rfl⟩

/-- C4 counterexample: the claim's covered scalar family is the
numeric/string one, which does not include booleans — but appending the
boolean `true` to the current number `1` is accepted by the handler's
`isinstance` guard (Python booleans are `int`s): the document is
mutated to the string `"2"` and no diagnostic is printed, instead of
the rejection with an unchanged document the claim requires. -/
theorem append_bool_operand_counterexample :
    (append_data ⟨.int 1, [], "doc.json", false⟩ ["true"]).nav.data = .str "2" ∧
    (append_data ⟨.int 1, [], "doc.json", false⟩ ["true"]).out = [] ∧
    Doc.str "2" ≠ Doc.int 1 :=
  ⟨rfl, rfl, fun h => Doc.noConfusion h⟩

/-- C4 amended: for every operand pair outside the pairs the handler's
own match covers — two mappings, two sequences, or two members of
Python's `int`/`str`/`float` scalar family, which includes booleans —
the append command prints a diagnostic and returns with the session
unchanged and no exception. -/
theorem append_uncovered_rejected
    (dn : DataNavigator) (args : List String) (new cur : Doc)
    (hcast : smart_cast (joinSpace args) = new)
    (hcur : get_data_by_path dn.data dn.path = .ok cur)
    (hnc : coveredPair new cur = false) :
    append_data dn args = ⟨dn, ["Could not append " ++ pyStr new ++ "."], none⟩ := by
  have hreject : appendCore new cur = .reject := by
    cases new <;> cases cur <;>
      simp_all [appendCore, coveredPair, isMapDoc, isSeqDoc, isNumStr]
  simp [append_data, get_data, hcast, hcur, hreject]

/-- Witness for C4 at the current node null and the argument `"x"`:
the pair (string, null) is uncovered, so the command only prints. -/
theorem append_uncovered_rejected_witness :
    append_data ⟨.null, [], "doc.json", false⟩ ["x"]
      = ⟨⟨.null, [], "doc.json", false⟩, ["Could not append x."], none⟩ :=
  append_uncovered_rejected ⟨.null, [], "doc.json", false⟩ ["x"]
    (.str "x") .null rfl rfl rfl

/-- C5: with the working address at the document root, `cd ..` prints
the root-level error line and leaves the whole session — the working
address in particular — unchanged, raising nothing. -/
theorem cd_dotdot_at_root_rejected (d : Doc) (fn : String) (lit : Bool) :
    (move ⟨d, [], fn, lit⟩ [".."]).nav = ⟨d, [], fn, lit⟩ ∧
    "ERROR: You are at root level." ∈ (move ⟨d, [], fn, lit⟩ [".."]).out ∧
    (move ⟨d, [], fn, lit⟩ [".."]).exn = none := by
  simp [move, moveSteps, moveStep]

/-- A rejected segment only appends its error line: the working
address, the document and the absence of an exception all survive the
step, so the walk continues from where it was. -/
theorem moveStep_invalid (st : MoveSt) (b : String)
    (h1 : st.exn = none) (h2 : invalidSeg st b = true) :
    moveStep st b = { st with out := st.out ++ [errLineFor b] } := by
  by_cases hdd : b = ".."
  · subst hdd
    simp [invalidSeg, List.isEmpty_iff] at h2
    simp [moveStep, h1, h2, errLineFor]
  · by_cases hbs : b = "\\"
    · subst hbs
      simp [invalidSeg, hdd] at h2
    · cases hg : get_data_by_path st.nav.data st.nav.path with
      | error e => simp [invalidSeg, hdd, hbs, hg] at h2
      | ok cur =>
        simp only [invalidSeg, if_neg hdd, if_neg hbs, hg, Bool.not_eq_eq_eq_not,
          Bool.not_true] at h2
        simp [moveStep, h1, hdd, hbs, hg, h2, errLineFor]

/-- C6: `cd` walks its segments left to right — processing a
concatenation is processing the first part and then the second from
the state the first part reached — and a segment that is invalid
against the node the walk has reached (not against the original node)
only has its error line reported, after which the remaining segments
of the same invocation are still processed from that same state. -/
theorem move_left_to_right_and_error_continues
    (st : MoveSt) (s1 s2 : List String) (b : String)
    (h1 : st.exn = none) (h2 : invalidSeg st b = true) :
    moveSteps st (b :: s2) =
      moveSteps { st with out := st.out ++ [errLineFor b] } s2 ∧
    moveSteps st (s1 ++ s2) = moveSteps (moveSteps st s1) s2 := by
  constructor
  · show (b :: s2).foldl moveStep st = _
    rw [List.foldl_cons, moveStep_invalid st b h1 h2]
    rfl
  · simp [moveSteps, List.foldl_append]

/-- Witness for C6 on the document `{"a": {"b": 1}}` from the root:
`"zz"` is invalid there, and the walk decomposes around it. -/
theorem move_left_to_right_and_error_continues_witness :
    moveSteps ⟨⟨.map [("a", .map [("b", .int 1)])], [], "doc.json", false⟩, [], none⟩
        ("zz" :: ["b"]) =
      moveSteps ⟨⟨.map [("a", .map [("b", .int 1)])], [], "doc.json", false⟩,
        [errLineFor "zz"], none⟩ ["b"] ∧
    moveSteps ⟨⟨.map [("a", .map [("b", .int 1)])], [], "doc.json", false⟩, [], none⟩
        (["a"] ++ ["b"]) =
      moveSteps
        (moveSteps ⟨⟨.map [("a", .map [("b", .int 1)])], [], "doc.json", false⟩,
          [], none⟩ ["a"]) ["b"] :=
  move_left_to_right_and_error_continues
    ⟨⟨.map [("a", .map [("b", .int 1)])], [], "doc.json", false⟩, [], none⟩
    ["a"] ["b"] "zz" rfl rfl

/-- C7 (documenting the code bug): `set_flag` computes
`args[1].lower()` before its arity guard is consulted, so the `flag`
command with fewer than two argument tokens raises `IndexError`; the
REPL loop dispatches handlers with no exception handler around them,
so the exception escapes the loop instead of being reported as a
diagnostic — contradicting the intent of the handler's own guard and
usage message. -/
theorem flag_short_args_raise_index_error :
    (set_flag ⟨.map [("k", .int 1)], [], "doc.json", false⟩ ["literal"]).exn
      = some .indexError ∧
    (replStep (fun _ => .null) ⟨.map [("k", .int 1)], [], "doc.json", false⟩
      "flag literal").exn = some .indexError ∧
    (replStep (fun _ => .null) ⟨.map [("k", .int 1)], [], "doc.json", false⟩
      "flag").exn = some .indexError := by
  refine ⟨rfl, ?_, ?_⟩
  · show (dispatch (fun _ => .null) "flag"
        ⟨.map [("k", .int 1)], [], "doc.json", false⟩ ["literal"]).exn
      = some .indexError
    rw [dispatch.eq_def]; rfl
  · show (dispatch (fun _ => .null) "flag"
        ⟨.map [("k", .int 1)], [], "doc.json", false⟩ []).exn
      = some .indexError
    rw [dispatch.eq_def]; rfl

/-- C8: a missing source file without the create flag, and an
unsupported format, end the process through `SystemExit` with a
message (failure status 1); a successful one-shot edit runs to
completion (success status 0); and the interactive path enters the
loop, whose `exit` command raises `SystemExit 0` (success status). -/
theorem exit_status_contract :
    (∀ (a : CliArgs) (content : Doc), a.make = false →
      main_run false content a
          = .fatal ("File " ++ a.filename ++ " does not exist.") ∧
        statusOf (main_run false content a) = some 1) ∧
    (∀ (a : CliArgs) (content : Doc), supportedExt (extOf a.filename) = false →
      main_run true content a = .fatal "Unsupported file format." ∧
        statusOf (main_run true content a) = some 1) ∧
    (∀ (a : CliArgs) (content : Doc) (v : String) (w : Doc),
      a.new_value = some v → supportedExt (extOf a.filename) = true →
      get_data_by_path content a.pathArg = .ok w →
      main_run true content a = .oneShotDone ∧
        statusOf (main_run true content a) = some 0) ∧
    (∀ (a : CliArgs) (content : Doc) (fs : String → Doc) (dn : DataNavigator),
      a.new_value = none → supportedExt (extOf a.filename) = true →
      main_run true content a
          = .interactive ⟨content, a.pathArg, a.filename, a.literal⟩ ∧
        (dispatch fs "exit" dn []).exn = some (.systemExit 0)) := by
  refine ⟨?_, ?_, ?_, ?_⟩
  · intro a content hmk
    simp [main_run, hmk, statusOf]
  · intro a content hsupp
    simp [main_run, open_file, hsupp, statusOf]
  · intro a content v w hv hsupp hget
    obtain ⟨D2, hc, _⟩ := change_roundtrip a.pathArg content w
      (if a.literal then smart_cast v else .str v) hget
    simp [main_run, open_file, save_file, hv, hsupp, hc, statusOf]
  · intro a content fs dn hv hsupp
    constructor
    · simp [main_run, open_file, hv, hsupp]
    · simp [dispatch, exit_repl]

/-- Witness for C8 at concrete command lines: a missing `doc.json`
without create, an unsupported `doc.txt`, a one-shot edit of the root
of a null document, and the interactive path plus the exit command. -/
theorem exit_status_contract_witness :
    main_run false .null ⟨"doc.json", none, [], false, false⟩
        = .fatal "File doc.json does not exist." ∧
    main_run true .null ⟨"doc.txt", none, [], false, false⟩
        = .fatal "Unsupported file format." ∧
    main_run true .null ⟨"doc.json", some "5", [], false, false⟩ = .oneShotDone ∧
    main_run true .null ⟨"doc.json", none, [], false, false⟩
        = .interactive ⟨.null, [], "doc.json", false⟩ ∧
    (dispatch (fun _ => .null) "exit" ⟨.null, [], "doc.json", false⟩ []).exn
        = some (.systemExit 0) :=
  ⟨(exit_status_contract.1 ⟨"doc.json", none, [], false, false⟩ .null rfl).1,
   (exit_status_contract.2.1 ⟨"doc.txt", none, [], false, false⟩ .null rfl).1,
   (exit_status_contract.2.2.1 ⟨"doc.json", some "5", [], false, false⟩ .null
      "5" .null rfl rfl rfl).1,
   (exit_status_contract.2.2.2 ⟨"doc.json", none, [], false, false⟩ .null
      (fun _ => .null) ⟨.null, [], "doc.json", false⟩ rfl rfl).1,
   (exit_status_contract.2.2.2 ⟨"doc.json", none, [], false, false⟩ .null
      (fun _ => .null) ⟨.null, [], "doc.json", false⟩ rfl rfl).2⟩

/-- C9: after any `+l` invocation the session's literal flag equals its
value from before the invocation — the restore sits in a `finally`, so
it also happens when the wrapped command raises and the exception then
escapes with the flag already restored — and when a command is wrapped,
that command alone is run, on the session with the literal flag forced
on through `set_flag`. -/
theorem temporary_literal_restores_flag
    (fs : String → Doc) (dn : DataNavigator)
    (func : String) (rest : List String) (hfunc : func ∈ commandNames) :
    (∀ args : List String,
      (temporary_literal fs dn args).nav.literal = dn.literal) ∧
    temporary_literal fs dn (func :: rest) =
      ⟨{ (dispatch fs func { dn with literal := true } rest).nav with
          literal := dn.literal },
        (dispatch fs func { dn with literal := true } rest).out,
        (dispatch fs func { dn with literal := true } rest).exn⟩ := by
  have hsf : set_flag dn ["literal", "on"] = ⟨{ dn with literal := true }, [], none⟩ :=
    rfl
  constructor
  · intro args
    cases args with
    | nil => rw [temporary_literal.eq_def]
    | cons f r =>
      rw [temporary_literal.eq_def]
      by_cases hf : f ∈ commandNames
      · simp [hf]
      · simp [hf]
  · rw [temporary_literal.eq_def]
    simp [hfunc, hsf]

/-- Witness for C9: wrapping `set 5` on a non-literal session; the
wrapped command runs with the flag on and the flag ends false again. -/
theorem temporary_literal_restores_flag_witness :
    (∀ args : List String,
      (temporary_literal (fun _ => .null)
        ⟨.int 1, [], "doc.json", false⟩ args).nav.literal = false) ∧
    temporary_literal (fun _ => .null) ⟨.int 1, [], "doc.json", false⟩
        ("set" :: ["5"]) =
      ⟨{ (dispatch (fun _ => .null) "set"
            ⟨.int 1, [], "doc.json", true⟩ ["5"]).nav with literal := false },
        (dispatch (fun _ => .null) "set" ⟨.int 1, [], "doc.json", true⟩ ["5"]).out,
        (dispatch (fun _ => .null) "set" ⟨.int 1, [], "doc.json", true⟩ ["5"]).exn⟩ :=
  temporary_literal_restores_flag (fun _ => .null) ⟨.int 1, [], "doc.json", false⟩
    "set" ["5"] (by decide)

/-- C10: when the current node is a sequence and the processed value —
smart-cast first in literal mode, the raw token otherwise — occurs in
it, `del-val` writes the `None` that `list.remove` returned back
through the replace operation with the cast forced: the current node of
the resulting document is null, not the sequence with the value
removed. -/
theorem del_val_on_sequence_writes_null
    (dn : DataNavigator) (v : String) (items items2 : List Doc)
    (hcur : get_data_by_path dn.data dn.path = .ok (.seq items))
    (hrem : removeFirst items (if dn.literal then smart_cast v else .str v)
      = some items2) :
    ∃ d2, change_data_by_path dn.data dn.path .null = .ok d2 ∧
      del_val dn [v] = ⟨{ dn with data := d2 }, [], none⟩ ∧
      get_data_by_path d2 dn.path = .ok .null := by
  obtain ⟨d2, hc, hg⟩ := change_roundtrip dn.path dn.data (.seq items) .null hcur
  refine ⟨d2, hc, ?_, hg⟩
  simp [del_val, get_data, hcur, delValLoop, hrem, change_data, smartCastDoc, hc]

/-- Witness for C10: deleting the value 2 from the sequence `[1, 2, 3]`
at the root in literal mode leaves the document null. -/
theorem del_val_on_sequence_writes_null_witness :
    ∃ d2, change_data_by_path (.seq [.int 1, .int 2, .int 3]) [] .null = .ok d2 ∧
      del_val ⟨.seq [.int 1, .int 2, .int 3], [], "doc.json", true⟩ ["2"]
        = ⟨{ (⟨.seq [.int 1, .int 2, .int 3], [], "doc.json", true⟩ : DataNavigator)
              with data := d2 }, [], none⟩ ∧
      get_data_by_path d2 [] = .ok .null :=
  del_val_on_sequence_writes_null
    ⟨.seq [.int 1, .int 2, .int 3], [], "doc.json", true⟩ "2"
    [.int 1, .int 2, .int 3] [.int 1, .int 3] rfl rfl

end JsonEditor
